import Mathlib

/-!
Verification development for the audio comparator/analyzer pipeline of the
`needle` repository (`needle/src/audio/comparator.rs`, `needle/src/audio/analyzer.rs`,
`needle/src/util.rs`).

Modelling conventions:
* `u32` hash values are modelled as `Nat` (callers only produce values `< 2^32`;
  bitwise operations are taken modulo `2^32` where it matters).
* `std::time::Duration` is modelled as `Nat` (nanoseconds).  Rust `Duration`
  subtraction panics on underflow; the model uses truncated `Nat` subtraction.
  Every subtraction performed by the modelled code paths is of the form
  `later - earlier` on timestamps of a stream with non-decreasing timestamps
  (the data-model invariant for fingerprint streams), where both agree.
* `f32` scores in the aggregator are modelled with exact rational arithmetic;
  all concrete comparisons below are far outside `f32` rounding error.
* Fallible operations (checked slice/`Vec` indexing, `usize` underflow followed
  by an out-of-range access) are modelled with `Except Panic`.
* `chromaprint::simhash::simhash32` is a third-party library function (not part
  of this repository); it is passed in as an explicit function parameter
  `simhash : List Nat → Nat`.
-/

namespace Needle

/-- A Rust panic (all panics reachable in the modelled code are failed slice or
`Vec` index bounds checks). -/
inductive Panic where
  | indexOutOfBounds
deriving DecidableEq

instance {ε α : Type} [DecidableEq ε] [DecidableEq α] : DecidableEq (Except ε α) := fun a b =>
  match a, b with
  | .ok x, .ok y =>
    if h : x = y then .isTrue (by rw [h]) else .isFalse (by intro hh; cases hh; exact h rfl)
  | .ok _, .error _ => .isFalse (by intro hh; cases hh)
  | .error _, .ok _ => .isFalse (by intro hh; cases hh)
  | .error x, .error y =>
    if h : x = y then .isTrue (by rw [h]) else .isFalse (by intro hh; cases hh; exact h rfl)

/-- A fingerprint sample `(u32 hash, Duration timestamp)`. -/
abbrev Sample := Nat × Nat

/-- The function `popCountAux fuel n` counts the 1-bits among the low `fuel` bits of `n`. -/
def popCountAux : Nat → Nat → Nat
  | 0, _ => 0
  | fuel + 1, n => n % 2 + popCountAux fuel (n / 2)

/-- Model of `u32::count_ones`: hash values are `u32`, so 32 bits suffice (the reduction
mod `2^32` makes the function total on `Nat`). -/
def countOnes32 (n : Nat) : Nat := popCountAux 32 (n % 2 ^ 32)

/-- Hamming distance `u32::count_ones(a ^ b)` between two `u32` hash values. -/
def hamming (a b : Nat) : Nat := countOnes32 (Nat.xor a b)

/-- Model of `usize` subtraction of 1 with wrap-around, as performed (in release mode) by
Rust when evaluating `len - 1` for `len = 0`. -/
def usizeSub1 (n : Nat) : Nat := (n + (2 ^ 64 - 1)) % 2 ^ 64

/-- Checked `Vec`/slice indexing: Rust `v[i]` panics when out of bounds. -/
def getIdx {α : Type} (l : List α) (i : Nat) : Except Panic α :=
  match l.get? i with
  | some x => Except.ok x
  | none => Except.error Panic.indexOutOfBounds

/-- The scalar configuration fields of `Comparator` used by
`longest_common_hash_match` and `find_best_match`
(`comparator.rs`, struct `Comparator`). -/
structure ComparatorCfg where
  hash_match_threshold : Nat
  opening_search_percentage : ℚ
  ending_search_percentage : ℚ
  min_opening_duration : Nat
  min_ending_duration : Nat
  time_padding : Nat
deriving DecidableEq

/-- Model of `ComparatorHeapEntry` (comparator.rs:28-40). -/
structure ComparatorHeapEntry where
  score : Nat
  src_longest_run : Nat × Nat
  dst_longest_run : Nat × Nat
  src_match_hash : Nat
  dst_match_hash : Nat
  is_src_opening : Bool
  is_src_ending : Bool
  is_dst_opening : Bool
  is_dst_ending : Bool
  src_hash_duration : Nat
  dst_hash_duration : Nat
deriving DecidableEq

/-- The arguments of `Comparator::longest_common_hash_match`
(comparator.rs:161-171), bundled: the configuration plus the two hash streams
and the six per-call scalars. -/
structure LchInput where
  cfg : ComparatorCfg
  src : List Sample
  dst : List Sample
  srcMaxOpeningTime : Nat
  srcMinEndingTime : Nat
  dstMaxOpeningTime : Nat
  dstMinEndingTime : Nat
  srcHashDuration : Nat
  dstHashDuration : Nat

/-- The DP table of `longest_common_hash_match` (comparator.rs:176-188):
`table[i][j] = 0` when `i == 0 || j == 0`; otherwise `table[i-1][j-1] + 1` when
`popcount(src[i].hash ^ dst[j].hash) <= threshold` and `0` otherwise.  Cells
outside the filled region `i < src.len(), j < dst.len()` stay `0` (the physical
table has `src.len()+1` rows and `dst.len()+1` columns, all zero-initialised). -/
def lchTable (cfg : ComparatorCfg) (src dst : List Sample) : Nat → Nat → Nat
  | 0, _ => 0
  | _ + 1, 0 => 0
  | i + 1, j + 1 =>
    if i + 1 < src.length ∧ j + 1 < dst.length then
      if hamming (src.getD (i + 1) (0, 0)).1 (dst.getD (j + 1) (0, 0)).1 ≤
          cfg.hash_match_threshold then
        lchTable cfg src dst i j + 1
      else 0
    else 0

/-- Checked read `table[i][j]`: the physical table has `src.len()+1` rows and
`dst.len()+1` columns. -/
def tableGet (cfg : ComparatorCfg) (src dst : List Sample) (i j : Nat) : Except Panic Nat :=
  if i ≤ src.length ∧ j ≤ dst.length then Except.ok (lchTable cfg src dst i j)
  else Except.error Panic.indexOutOfBounds

/-- The data read for an end-of-run cell `(i, j)` before the validity gate
(comparator.rs:210-213). -/
structure CellData where
  t : Nat
  srcStartIdx : Nat
  srcEndIdx : Nat
  dstStartIdx : Nat
  dstEndIdx : Nat
  srcStart : Nat
  srcEnd : Nat
  dstStart : Nat
  dstEnd : Nat
deriving DecidableEq

/-- comparator.rs:210-213: index arithmetic and the four timestamp reads for a
run of length `t = table[i][j]` ending at `(i, j)`. -/
def readRun (A : LchInput) (i j t : Nat) : Except Panic CellData := do
  let sS ← getIdx A.src (i - t)
  let sE ← getIdx A.src i
  let dS ← getIdx A.dst (j - t)
  let dE ← getIdx A.dst j
  Except.ok
    { t := t, srcStartIdx := i - t, srcEndIdx := i, dstStartIdx := j - t, dstEndIdx := j,
      srcStart := sS.2, srcEnd := sE.2, dstStart := dS.2, dstEnd := dE.2 }

/-- comparator.rs:196-213: at cell `(i, j)`, skip unless `table[i][j] != 0` and
the cell ends a run (`i < src.len()-1 && j < dst.len()-1 && table[i+1][j+1] != 0`
means the run continues and the cell is skipped; short-circuit order of the
Rust `||`/`&&` is preserved, in particular `table[i][j]` is read first). -/
def cellCandidate (A : LchInput) (i j : Nat) : Except Panic (Option CellData) := do
  let t ← tableGet A.cfg A.src A.dst i j
  if t = 0 then Except.ok none
  else if i < A.src.length - 1 ∧ j < A.dst.length - 1 then do
    let t2 ← tableGet A.cfg A.src A.dst (i + 1) (j + 1)
    if t2 ≠ 0 then Except.ok none
    else do
      let cd ← readRun A i j t
      Except.ok (some cd)
  else do
    let cd ← readRun A i j t
    Except.ok (some cd)

/-- Model of `Comparator::compute_hash_for_match` (comparator.rs:153-157):
simhash over `hashes[start ..= end]`. -/
def compute_hash_for_match (simhash : List Nat → Nat) (hashes : List Sample)
    (se : Nat × Nat) : Nat :=
  simhash (((hashes.map Prod.fst).drop se.1).take (se.2 + 1 - se.1))

/-- comparator.rs:214-253: classification flags, the validity gate, and the
construction of the heap entry for an end-of-run cell.  Returns `none` when the
candidate is dropped by the gate. -/
def gateEntry (A : LchInput) (simhash : List Nat → Nat) (cd : CellData) :
    Option ComparatorHeapEntry :=
  let isSrcOpening : Bool := decide (cd.srcEnd < A.srcMaxOpeningTime)
  let isSrcEnding : Bool := decide (cd.srcStart > A.srcMinEndingTime)
  let isDstOpening : Bool := decide (cd.dstEnd < A.dstMaxOpeningTime)
  let isDstEnding : Bool := decide (cd.dstStart > A.dstMinEndingTime)
  let isSrcValid : Bool :=
    (isSrcOpening && decide (cd.srcEnd - cd.srcStart ≥ A.cfg.min_opening_duration)) ||
      (isSrcEnding && decide (cd.srcEnd - cd.srcStart ≥ A.cfg.min_ending_duration))
  let isDstValid : Bool :=
    (isDstOpening && decide (cd.dstEnd - cd.dstStart ≥ A.cfg.min_opening_duration)) ||
      (isDstEnding && decide (cd.dstEnd - cd.dstStart ≥ A.cfg.min_ending_duration))
  if isSrcValid && isDstValid then
    some
      { score := cd.t
        src_longest_run := (cd.srcStart, cd.srcEnd)
        dst_longest_run := (cd.dstStart, cd.dstEnd)
        src_match_hash := compute_hash_for_match simhash A.src (cd.srcStartIdx, cd.srcEndIdx)
        dst_match_hash := compute_hash_for_match simhash A.dst (cd.dstStartIdx, cd.dstEndIdx)
        is_src_opening := isSrcOpening
        is_src_ending := isSrcEnding
        is_dst_opening := isDstOpening
        is_dst_ending := isDstEnding
        src_hash_duration := A.srcHashDuration
        dst_hash_duration := A.dstHashDuration }
  else none

/-- One iteration of the inner emission loop body at cell `(i, j)`. -/
def emitCell (A : LchInput) (simhash : List Nat → Nat) (i j : Nat) :
    Except Panic (Option ComparatorHeapEntry) := do
  let c ← cellCandidate A i j
  match c with
  | none => Except.ok none
  | some cd => Except.ok (gateEntry A simhash cd)

/-- Inner loop (comparator.rs:194-256): `j` runs downwards while `j > 0`;
entries are collected in scan order (the Rust code pushes them into a
`BinaryHeap` and returns `heap.into()`, whose `Vec` order is an unspecified but
deterministic permutation of the pushed entries; all claims below are stated up
to list membership or on singleton outputs, where the permutation is
irrelevant). -/
def emitRowJ (A : LchInput) (simhash : List Nat → Nat) (i : Nat) :
    Nat → Except Panic (List ComparatorHeapEntry)
  | 0 => Except.ok []
  | j + 1 => do
    let c ← emitCell A simhash i (j + 1)
    let rest ← emitRowJ A simhash i j
    Except.ok (c.toList ++ rest)

/-- Outer loop (comparator.rs:192-259): `i` runs downwards while `i > 0`; for
each `i` the inner loop starts at `j = dst.len() - 1` (with `usize` wrap-around
when `dst` is empty). -/
def emitAllI (A : LchInput) (simhash : List Nat → Nat) :
    Nat → Except Panic (List ComparatorHeapEntry)
  | 0 => Except.ok []
  | i + 1 => do
    let row ← emitRowJ A simhash (i + 1) (usizeSub1 A.dst.length)
    let rest ← emitAllI A simhash i
    Except.ok (row ++ rest)

/-- Model of `Comparator::longest_common_hash_match` (comparator.rs:161-262): builds the
DP table and walks it from `i = src.len() - 1` downwards (with `usize`
wrap-around when `src` is empty: the loop index becomes `2^64 - 1` and the
first table access is out of range whenever `dst.len() != 1`). -/
def longest_common_hash_match (A : LchInput) (simhash : List Nat → Nat) :
    Except Panic (List ComparatorHeapEntry) :=
  emitAllI A simhash (usizeSub1 A.src.length)

/-- Model of `OpeningAndEndingInfo` (comparator.rs:52-58). -/
structure OpeningAndEndingInfo where
  src_openings : List ComparatorHeapEntry
  dst_openings : List ComparatorHeapEntry
  src_endings : List ComparatorHeapEntry
  dst_endings : List ComparatorHeapEntry
deriving DecidableEq

/-- Model of `OpeningAndEndingInfo::is_empty` (comparator.rs:61-66). -/
def OpeningAndEndingInfo.is_empty (x : OpeningAndEndingInfo) : Bool :=
  x.src_openings.isEmpty && x.dst_openings.isEmpty &&
    x.src_endings.isEmpty && x.dst_endings.isEmpty

/-- Model of `SearchResult` (comparator.rs:70-74). -/
structure SearchResult where
  opening : Option (Nat × Nat)
  ending : Option (Nat × Nat)
deriving DecidableEq

/-- A flattened aggregator candidate (comparator.rs:431-451):
`((own-side run, own-side hash duration, own-side match hash), is_opening)`. -/
abbrev Candidate := ((Nat × Nat) × Nat × Nat) × Bool

/-- comparator.rs:431-451: flatten the per-pair infos into the candidate list.
For a source-side info, `src_openings` (tagged `true`) then `src_endings`
(tagged `false`); for a destination-side info the `dst` projections. -/
def flattenCandidates (ms : List (OpeningAndEndingInfo × Bool)) : List Candidate :=
  (ms.map (fun mi =>
    if mi.2 then
      mi.1.src_openings.map
          (fun e => ((e.src_longest_run, e.src_hash_duration, e.src_match_hash), true)) ++
        mi.1.src_endings.map
          (fun e => ((e.src_longest_run, e.src_hash_duration, e.src_match_hash), false))
    else
      mi.1.dst_openings.map
          (fun e => ((e.dst_longest_run, e.dst_hash_duration, e.dst_match_hash), true)) ++
        mi.1.dst_endings.map
          (fun e => ((e.dst_longest_run, e.dst_hash_duration, e.dst_match_hash), false)))).flatten

/-- Out-of-range candidate reads never happen (all indices come from
`List.range candidates.length`); `getD` keeps the definitions total. -/
def getCand (cands : List Candidate) (k : Nat) : Candidate :=
  cands.getD k (((0, 0), 0, 0), false)

/-- comparator.rs:453-473: after the double loop, the `HashMap`
`distinct_matches` maps index `i` to the set of all indices `j` with
`popcount(hash_i ^ hash_j) < threshold + threshold/2` — the loop ranges over
all ordered pairs `(i, j)` (including `i = j`) and inserts symmetrically, and
the distance is symmetric, so row `i` of the map is exactly this set.  The
model lists the set in increasing index order. -/
def neighborIdxs (cands : List Candidate) (threshold : Nat) (i : Nat) : List Nat :=
  (List.range cands.length).filter (fun j =>
    decide (hamming (getCand cands i).1.2.2 (getCand cands j).1.2.2 <
      threshold + threshold / 2))

/-- Index `i` is a key of `distinct_matches` iff its neighbor set is non-empty
(an entry for `i` is only ever created when some pair involving `i` passes the
distance test).  `mapKeys` lists the keys in increasing order; the `HashMap`
iteration order is an unspecified permutation of this list and is passed to the
functions below as an explicit `order` argument. -/
def mapKeys (cands : List Candidate) (threshold : Nat) : List Nat :=
  (List.range cands.length).filter (fun i => !(neighborIdxs cands threshold i).isEmpty)

/-- comparator.rs:481-487 and 498-504: the score
`-(count as f32 * 0.3 + duration_secs * 0.7)` of candidate `k`.  It is
modelled in exact integer arithmetic, scaled by the constant factor `10^10`
(timestamps are nanoseconds): `-(count·3·10^9 + dur_ns·7)` equals `10^10`
times the Rust score.  The scale factor is positive, so ascending order of the
modelled scores coincides with ascending order of the Rust scores, and the
scores enter the algorithm only as sort keys. -/
def scoreOf (cands : List Candidate) (threshold : Nat) (k : Nat) : Int :=
  let c := getCand cands k
  let count : Int := ((neighborIdxs cands threshold k).length : Int)
  let durNs : Int := ((c.1.1.2 - c.1.1.1 : Nat) : Int) ;
  -(count * 3 * 1000000000 + durNs * 7)

/-- The order used by `best_openings.sort_by(partial_cmp)` on `(f32, usize)`
pairs: lexicographic (total here because no score is NaN). -/
def pairLE (a b : Int × Nat) : Prop := a.1 < b.1 ∨ (a.1 = b.1 ∧ a.2 ≤ b.2)

instance : DecidableRel pairLE := fun a b =>
  inferInstanceAs (Decidable (a.1 < b.1 ∨ (a.1 = b.1 ∧ a.2 ≤ b.2)))

instance : IsTotal (Int × Nat) pairLE where
  total a b := by
    rcases lt_trichotomy a.1 b.1 with h | h | h
    · exact Or.inl (Or.inl h)
    · rcases Nat.le_total a.2 b.2 with h2 | h2
      · exact Or.inl (Or.inr ⟨h, h2⟩)
      · exact Or.inr (Or.inr ⟨h.symm, h2⟩)
    · exact Or.inr (Or.inl h)

instance : IsTrans (Int × Nat) pairLE where
  trans a b c hab hbc := by
    rcases hab with h1 | ⟨he1, hn1⟩
    · rcases hbc with h2 | ⟨he2, _⟩
      · exact Or.inl (h1.trans h2)
      · exact Or.inl (he2 ▸ h1)
    · rcases hbc with h2 | ⟨he2, hn2⟩
      · exact Or.inl (he1 ▸ h2)
      · exact Or.inr ⟨he1.trans he2, hn1.trans hn2⟩

instance : IsAntisymm (Int × Nat) pairLE where
  antisymm a b hab hba := by
    rcases hab with h1 | ⟨he1, hn1⟩
    · rcases hba with h2 | ⟨he2, _⟩
      · exact absurd (h1.trans h2) (lt_irrefl _)
      · exact absurd h1 (he2 ▸ lt_irrefl _)
    · rcases hba with h2 | ⟨_, hn2⟩
      · exact absurd h2 (he1 ▸ lt_irrefl _)
      · exact Prod.ext he1 (Nat.le_antisymm hn1 hn2)

/-- comparator.rs:475-490 (openings) / 492-506 (endings): iterate the
`distinct_matches` entries in enumeration order `order`, keep candidates with
the requested `is_opening` tag, score them, and sort ascending by
`(score, index)`. -/
def bestList (cands : List Candidate) (threshold : Nat) (isOpening : Bool)
    (order : List Nat) : List (Int × Nat) :=
  List.insertionSort pairLE
    ((order.filter (fun k => (getCand cands k).2 == isOpening)).map
      (fun k => (scoreOf cands threshold k, k)))

/-- comparator.rs:510-527: take the first (most negative score) entry and pad
the run: `(start + time_padding, end - time_padding - hash_duration)`. -/
def pickBest (cands : List Candidate) (time_padding : Nat) (best : List (Int × Nat)) :
    Option (Nat × Nat) :=
  match best.head? with
  | none => none
  | some sk =>
    let c := getCand cands sk.2 ;
    some (c.1.1.1 + time_padding, c.1.1.2 - time_padding - c.1.2.1)

/-- Model of `Comparator::find_best_match` (comparator.rs:424-530), with the iteration
orders of the two passes over the `distinct_matches` hash map exposed as
explicit arguments (each actual execution uses some permutation of
`mapKeys`). -/
def find_best_match_ord (cfg : ComparatorCfg) (ms : List (OpeningAndEndingInfo × Bool))
    (orderO orderE : List Nat) : Option SearchResult :=
  if ms.length = 0 then none
  else
    let cands := flattenCandidates ms
    let bo := bestList cands cfg.hash_match_threshold true orderO
    let be := bestList cands cfg.hash_match_threshold false orderE ;
    some
      { opening := pickBest cands cfg.time_padding bo
        ending := pickBest cands cfg.time_padding be }

/-- The function `find_best_match` at the canonical (increasing-index) enumeration order of
the hash-map keys. -/
def find_best_match (cfg : ComparatorCfg) (ms : List (OpeningAndEndingInfo × Bool)) :
    Option SearchResult :=
  let cands := flattenCandidates ms ;
  find_best_match_ord cfg ms (mapKeys cands cfg.hash_match_threshold)
    (mapKeys cands cfg.hash_match_threshold)

/-- The fields of the frame-hash record accessed by the comparator
(`find_opening_and_ending` reads `src_hashes.data` and
`src_hashes.hash_duration`, converted via `Duration::from_secs_f32`; the
analyzer cache check reads `data.md5()`).  `hash_duration` is modelled directly
as a duration in nanoseconds. -/
structure FrameHashes where
  data : List Sample
  hash_duration : Nat
  md5 : String
deriving DecidableEq

/-- comparator.rs:277-284: `((len - 1) as f32 * pct) as usize`, in exact
rational arithmetic; `usize` wrap-around for `len = 0` is mirrored (the `as
usize` cast of a non-negative float truncates, and of a negative float
saturates to 0 — `Int.toNat ∘ Int.floor` does both). -/
def searchIdx (len : Nat) (pct : ℚ) : Nat := (⌊(usizeSub1 len : ℚ) * pct⌋).toNat

/-- comparator.rs:306-330: distribute the matcher entries over the four
buckets: `if is_src_opening {src_openings} else if is_src_ending {src_endings}`
and the same on the `dst` side, preserving scan order. -/
def bucketize (entries : List ComparatorHeapEntry) : OpeningAndEndingInfo :=
  { src_openings := entries.filter (fun e => e.is_src_opening)
    src_endings := entries.filter (fun e => !e.is_src_opening && e.is_src_ending)
    dst_openings := entries.filter (fun e => e.is_dst_opening)
    dst_endings := entries.filter (fun e => !e.is_dst_opening && e.is_dst_ending) }

/-- Model of `Comparator::find_opening_and_ending` (comparator.rs:264-331): compute the
opening/ending region boundary timestamps (an out-of-range read — in
particular on an empty hash stream — panics), run the LCS matcher, and bucket
the results. -/
def find_opening_and_ending (cfg : ComparatorCfg) (simhash : List Nat → Nat)
    (srcH dstH : FrameHashes) : Except Panic OpeningAndEndingInfo := do
  let sOp ← getIdx srcH.data (searchIdx srcH.data.length cfg.opening_search_percentage)
  let sEn ← getIdx srcH.data (searchIdx srcH.data.length (1 - cfg.ending_search_percentage))
  let dOp ← getIdx dstH.data (searchIdx dstH.data.length cfg.opening_search_percentage)
  let dEn ← getIdx dstH.data (searchIdx dstH.data.length (1 - cfg.ending_search_percentage))
  let entries ← longest_common_hash_match
    { cfg := cfg, src := srcH.data, dst := dstH.data,
      srcMaxOpeningTime := sOp.2, srcMinEndingTime := sEn.2,
      dstMaxOpeningTime := dOp.2, dstMinEndingTime := dEn.2,
      srcHashDuration := srcH.hash_duration, dstHashDuration := dstH.hash_duration } simhash
  Except.ok (bucketize entries)

/-- The library error enum (lib.rs:120-146).  Wrapped third-party payloads are
dropped; there is no configuration-error variant. -/
inductive NeedleError where
  | FrameHashDataNotFound (path : String)
  | FrameHashDataInvalidVersion
  | AnalyzerMissingPaths
  | PathNotFound (path : String)
  | FFmpegError
  | BincodeError
  | SerdeJSONError
  | IOError
deriving DecidableEq

/-- How a modelled operation can fail: a Rust panic or a returned `Error`. -/
inductive Failure where
  | panic (p : Panic)
  | err (e : NeedleError)
deriving DecidableEq

/-- Model of `Comparator` (comparator.rs:79-87): the video list plus the scalar
configuration (grouped in `ComparatorCfg`); paths are modelled as strings. -/
structure Comparator where
  videos : List String
  cfg : ComparatorCfg

/-- Model of `Comparator::from_files` (comparator.rs:105-110): store the provided video
list and sort it (`Vec::sort`, a stable sort by `Ord`). -/
def Comparator.from_files (cfg : ComparatorCfg) (videos : List String) : Comparator :=
  { videos := List.insertionSort (fun a b : String => a ≤ b) videos, cfg := cfg }

/-- Pair enumeration (comparator.rs:550-572): for `i` in `0..V` and `j` in
`0..V`, skip `i == j` and already-processed `j` (`processed_videos[j]` holds
exactly when `j < i`), then push `(i, j)`. -/
def buildPairs (V : Nat) : List (Nat × Nat) :=
  ((List.range V).map (fun i =>
    ((List.range V).filter (fun j => !(decide (i = j) || decide (j < i)))).map
      (fun j => (i, j)))).flatten

/-- Model of `Comparator::search` (comparator.rs:402-418): index the loaded frame-hash
records and run `find_opening_and_ending`. -/
def searchPair (cfg : ComparatorCfg) (simhash : List Nat → Nat)
    (frameHashMap : List FrameHashes) (srcIdx dstIdx : Nat) :
    Except Panic OpeningAndEndingInfo := do
  let s ← getIdx frameHashMap srcIdx
  let d ← getIdx frameHashMap dstIdx
  find_opening_and_ending cfg simhash s d

/-- comparator.rs:610-615: the per-video list of `(info, is_source)` evidence,
in `data` order; each triple contributes its source tag before its destination
tag. -/
def infoFor (data : List (Nat × Nat × OpeningAndEndingInfo)) (idx : Nat) :
    List (OpeningAndEndingInfo × Bool) :=
  (data.map (fun x =>
    (if x.1 = idx then [(x.2.2, true)] else []) ++
      (if x.2.1 = idx then [(x.2.2, false)] else []))).flatten

/-- The final per-video loop of `Comparator::run` (comparator.rs:621-650),
iterating over the video indices: optional skip-file short-circuit, candidate
aggregation (`find_best_match` with the two hash-map iteration orders given by
`ordersO`/`ordersE`), optional skip-file write, and insertion into the result
map (modelled as an association list in iteration order; the keys are the
sorted video paths, so this is also the `BTreeMap` order). -/
def processVideos (c : Comparator) (data : List (Nat × Nat × OpeningAndEndingInfo))
    (use_skip_files : Bool) (checkSkip : String → Except NeedleError Bool)
    (write_skip_files : Bool) (writeSkip : String → SearchResult → Except NeedleError Unit)
    (ordersO ordersE : Nat → List Nat) :
    List Nat → Except Failure (List (String × SearchResult))
  | [] => Except.ok []
  | idx :: rest => do
    let path := c.videos.getD idx ""
    let skip ← if use_skip_files then Except.mapError Failure.err (checkSkip path)
      else Except.ok false
    if skip then
      processVideos c data use_skip_files checkSkip write_skip_files writeSkip ordersO ordersE rest
    else
      match find_best_match_ord c.cfg (infoFor data idx) (ordersO idx) (ordersE idx) with
      | none =>
        processVideos c data use_skip_files checkSkip write_skip_files writeSkip ordersO
          ordersE rest
      | some result => do
        (if write_skip_files then Except.mapError Failure.err (writeSkip path result)
          else Except.ok ())
        let tail ← processVideos c data use_skip_files checkSkip write_skip_files writeSkip
          ordersO ordersE rest
        Except.ok ((path, result) :: tail)

/-- Model of `Comparator::run` (comparator.rs:540-653), single-threaded path.  File I/O
is abstracted into environment functions: `loadFH` models
`FrameHashes::from_video` (cache read or in-place analysis), `checkSkip` models
`check_skip_file`, `writeSkip` models `create_skip_file`.  The two hash-map
iteration orders used inside `find_best_match` for video `idx` are
`ordersO idx` and `ordersE idx`. -/
def Comparator.run (c : Comparator) (simhash : List Nat → Nat)
    (loadFH : String → Except NeedleError FrameHashes)
    (use_skip_files : Bool) (checkSkip : String → Except NeedleError Bool)
    (write_skip_files : Bool) (writeSkip : String → SearchResult → Except NeedleError Unit)
    (ordersO ordersE : Nat → List Nat) :
    Except Failure (List (String × SearchResult)) := do
  let frameHashMap ← Except.mapError Failure.err (c.videos.mapM loadFH)
  let pairs := buildPairs c.videos.length
  let infos ← Except.mapError Failure.panic
    (pairs.mapM (fun p =>
      (searchPair c.cfg simhash frameHashMap p.1 p.2).map (fun inf => (p.1, p.2, inf))))
  let data := infos.filter (fun x => !(x.2.2.is_empty))
  processVideos c data use_skip_files checkSkip write_skip_files writeSkip ordersO ordersE
    (List.range c.videos.length)

/-- Model of `compute_header_md5sum` (util.rs:89-95): open the file (modelled: `none`
means the open fails with an I/O error), `read_exact` into an 8 KiB buffer
(fails with `UnexpectedEof`, an I/O error, when the file holds fewer than
8192 bytes), and hash the buffer.  The `md5` crate is third-party and is passed
in as `md5hex`. -/
def compute_header_md5sum (md5hex : List Nat → String) (file : Option (List Nat)) :
    Except NeedleError String :=
  match file with
  | none => Except.error NeedleError.IOError
  | some content =>
    if content.length ≥ 8192 then Except.ok (md5hex (content.take 8192))
    else Except.error NeedleError.IOError

/-- Model of `Analyzer::run_single` (analyzer.rs:299-394) up to its decode phase: the
provenance MD5 is computed first; then, unless `force` is set, a sibling cache
record (`cache`, `none` when the file cannot be opened; deserialization of an
openable record is assumed to succeed, the Rust code unwraps it) short-circuits
the run when its stored MD5 matches.  Everything after that point
(analyzer.rs:324-393) decodes and fingerprints via ffmpeg/chromaprint and is
modelled as the opaque outcome `decodeRest`; the claims settled against this
model are decided before that phase is reached.  Note that `hash_period` and
`hash_duration` are not inspected anywhere before the decode phase. -/
def run_single (force : Bool) (md5hex : List Nat → String) (videoFile : Option (List Nat))
    (cache : Option FrameHashes) (hash_period hash_duration : ℚ)
    (decodeRest : Except Failure FrameHashes) : Except Failure FrameHashes := do
  let md5 ← Except.mapError Failure.err (compute_header_md5sum md5hex videoFile)
  match (if force then none else cache) with
  | some d => if d.md5 = md5 then Except.ok d else decodeRest
  | none => decodeRest

/-- Model of `SkipFile` (comparator.rs:18-23): optional second ranges (`f32` seconds,
modelled as exact rationals) plus the provenance MD5. -/
structure SkipFile where
  opening : Option (ℚ × ℚ)
  ending : Option (ℚ × ℚ)
  md5 : String
deriving DecidableEq

/-- Model of `Duration::as_secs_f32` (nanoseconds to seconds), in exact arithmetic. -/
def durToSecs (n : Nat) : ℚ := (n : ℚ) / 1000000000

/-- Model of `Comparator::check_skip_file` (comparator.rs:333-350): `Ok(false)` when no
skip file exists; otherwise compute the header MD5 (early `?`-return on error)
and compare it with the stored one (the existing skip file itself is provided
by the environment, deserialization is unwrapped in the Rust code). -/
def check_skip_file (md5hex : List Nat → String) (videoFile : Option (List Nat))
    (skipFile : Option SkipFile) : Except NeedleError Bool :=
  match skipFile with
  | none => Except.ok false
  | some sf => do
    let md5 ← compute_header_md5sum md5hex videoFile
    Except.ok (decide (sf.md5 = md5))

/-- Model of `Comparator::create_skip_file` (comparator.rs:352-377): convert the result
ranges to seconds; if both are absent, write nothing and succeed; otherwise
compute the header MD5 (early `?`-return on error) and write the record (the
model returns the record written, `none` when nothing was written). -/
def create_skip_file (md5hex : List Nat → String) (videoFile : Option (List Nat))
    (result : SearchResult) : Except NeedleError (Option SkipFile) :=
  let opening := result.opening.map (fun se => (durToSecs se.1, durToSecs se.2))
  let ending := result.ending.map (fun se => (durToSecs se.1, durToSecs se.2))
  if opening = none ∧ ending = none then Except.ok none
  else do
    let md5 ← compute_header_md5sum md5hex videoFile
    Except.ok (some { opening := opening, ending := ending, md5 := md5 })

/-! ### Concrete instances used by the claim theorems -/

/-- A concrete stand-in for the third-party `simhash32` (its value is never
constrained by the claims). -/
def simhash0 : List Nat → Nat := fun _ => 0

/-- A configuration with exact matching (θ = 0) and no duration gates. -/
def c1Cfg : ComparatorCfg :=
  { hash_match_threshold := 0, opening_search_percentage := 1 / 2,
    ending_search_percentage := 1 / 4, min_opening_duration := 0,
    min_ending_duration := 0, time_padding := 0 }

/-- The hand-constructed streams `src = [A,B,C,D]`, `dst = [X,A,B,C,Y]` with
distinct hashes `A=1, B=2, C=4, D=8, X=16, Y=32` and timestamps
`0,1,2,3` / `0,1,2,3,4`; the region bounds are far above every timestamp and
the duration gates are zero, so any emitted candidate is accepted. -/
def c1Input : LchInput :=
  { cfg := c1Cfg
    src := [(1, 0), (2, 1), (4, 2), (8, 3)]
    dst := [(16, 0), (1, 1), (2, 2), (4, 3), (32, 4)]
    srcMaxOpeningTime := 10, srcMinEndingTime := 10
    dstMaxOpeningTime := 10, dstMinEndingTime := 10
    srcHashDuration := 0, dstHashDuration := 0 }

/-- The single entry the matcher emits on `c1Input`. -/
def c1Entry : ComparatorHeapEntry :=
  { score := 2, src_longest_run := (0, 2), dst_longest_run := (1, 3),
    src_match_hash := 0, dst_match_hash := 0,
    is_src_opening := true, is_src_ending := false,
    is_dst_opening := true, is_dst_ending := false,
    src_hash_duration := 0, dst_hash_duration := 0 }

/-- Streams for the C2 counterexample: `src` matches `dst` on three samples
(hashes `1, 2, 4`) preceded by one non-matching sample on each side.  The
region scalars classify the source run as an opening (`src_end = 30 < 31`) and
the destination run as an ending (`dst_start = 100 > 99`), and both runs last
30 ≥ `min_opening_duration` = `min_ending_duration` = 30. -/
def c2Input : LchInput :=
  { cfg := { hash_match_threshold := 0, opening_search_percentage := 1 / 2,
             ending_search_percentage := 1 / 4, min_opening_duration := 30,
             min_ending_duration := 30, time_padding := 0 }
    src := [(9, 0), (1, 10), (2, 20), (4, 30)]
    dst := [(7, 100), (1, 110), (2, 120), (4, 130)]
    srcMaxOpeningTime := 31, srcMinEndingTime := 1000
    dstMaxOpeningTime := 0, dstMinEndingTime := 99
    srcHashDuration := 0, dstHashDuration := 0 }

/-- The entry emitted on `c2Input`: source side classified opening, destination
side classified ending. -/
def c2Entry : ComparatorHeapEntry :=
  { score := 3, src_longest_run := (0, 30), dst_longest_run := (100, 130),
    src_match_hash := 0, dst_match_hash := 0,
    is_src_opening := true, is_src_ending := false,
    is_dst_opening := false, is_dst_ending := true,
    src_hash_duration := 0, dst_hash_duration := 0 }

/-- The streams of the C4 failing input: `src` empty, `dst` of length 2. -/
def c4Input : LchInput :=
  { cfg := c1Cfg
    src := []
    dst := [(1, 0), (2, 1)]
    srcMaxOpeningTime := 10, srcMinEndingTime := 10
    dstMaxOpeningTime := 10, dstMinEndingTime := 10
    srcHashDuration := 0, dstHashDuration := 0 }

/-- A frame-hash record with a matching MD5 for the C5 counterexample. -/
def c5Cache : FrameHashes :=
  { data := [(1, 0)], hash_duration := 3000000000, md5 := "aa" }

/-- A non-empty pair-search info record used to witness C8. -/
def c8Info : OpeningAndEndingInfo :=
  { src_openings :=
      [{ score := 5, src_longest_run := (0, 60000000000), dst_longest_run := (0, 60000000000),
         src_match_hash := 3, dst_match_hash := 3,
         is_src_opening := true, is_src_ending := false,
         is_dst_opening := true, is_dst_ending := false,
         src_hash_duration := 0, dst_hash_duration := 0 }]
    dst_openings := [], src_endings := [], dst_endings := [] }

/-- A comparator configuration with θ = 0 for the C8 witness. -/
def c8Cfg : ComparatorCfg :=
  { hash_match_threshold := 0, opening_search_percentage := 1 / 2,
    ending_search_percentage := 1 / 4, min_opening_duration := 0,
    min_ending_duration := 0, time_padding := 0 }

/-- Entry constructor for aggregator tests: only the source-side run, hash
duration and match hash matter to `find_best_match` on source-side infos. -/
def mkSrcEntry (runRange : Nat × Nat) (hash : Nat) : ComparatorHeapEntry :=
  { score := 1, src_longest_run := runRange, dst_longest_run := runRange,
    src_match_hash := hash, dst_match_hash := hash,
    is_src_opening := true, is_src_ending := false,
    is_dst_opening := true, is_dst_ending := false,
    src_hash_duration := 0, dst_hash_duration := 0 }

/-- The C3 aggregator configuration: the default θ = 10 (neighbor bound 15)
and no time padding. -/
def c3Cfg : ComparatorCfg :=
  { hash_match_threshold := 10, opening_search_percentage := 1 / 2,
    ending_search_percentage := 1 / 4, min_opening_duration := 20,
    min_ending_duration := 20, time_padding := 0 }

/-- The C3 match list: one source-side info with two opening candidates — a
30-second run (match hash 0) and a 25-second run (match hash `0xFFFFFFFF`) —
plus four ending candidates hash-identical to the 25-second one.  The
candidate neighbor counts are therefore 1 (the 30 s opening: only itself) and
5 (the 25 s opening: itself plus the four endings); a count of 0 is impossible
because every candidate is within distance 0 of itself. -/
def c3Matches : List (OpeningAndEndingInfo × Bool) :=
  [({ src_openings :=
        [mkSrcEntry (0, 30000000000) 0, mkSrcEntry (0, 25000000000) 4294967295]
      src_endings :=
        [mkSrcEntry (100000000000, 130000000000) 4294967295,
         mkSrcEntry (100000000000, 130000000000) 4294967295,
         mkSrcEntry (100000000000, 130000000000) 4294967295,
         mkSrcEntry (100000000000, 130000000000) 4294967295]
      dst_openings := [], dst_endings := [] }, true)]

/-- Side validity as recorded in an emitted entry: the side was classified
opening and its run is at least `min_opening_duration` long, or it was
classified ending and its run is at least `min_ending_duration` long. -/
def sideValidEntry (cfg : ComparatorCfg) (e : ComparatorHeapEntry) : Prop :=
  ((e.is_src_opening = true ∧
      cfg.min_opening_duration ≤ e.src_longest_run.2 - e.src_longest_run.1) ∨
    (e.is_src_ending = true ∧
      cfg.min_ending_duration ≤ e.src_longest_run.2 - e.src_longest_run.1)) ∧
  ((e.is_dst_opening = true ∧
      cfg.min_opening_duration ≤ e.dst_longest_run.2 - e.dst_longest_run.1) ∨
    (e.is_dst_ending = true ∧
      cfg.min_ending_duration ≤ e.dst_longest_run.2 - e.dst_longest_run.1))

/-- Side validity of a discovered run *before* the gate, in the claim's own
vocabulary (comparator.rs:224-229): each side is classified opening and lasts
at least `min_opening_duration`, or is classified ending and lasts at least
`min_ending_duration`. -/
def cdSidesValid (A : LchInput) (cd : CellData) : Prop :=
  ((cd.srcEnd < A.srcMaxOpeningTime ∧
      A.cfg.min_opening_duration ≤ cd.srcEnd - cd.srcStart) ∨
    (cd.srcStart > A.srcMinEndingTime ∧
      A.cfg.min_ending_duration ≤ cd.srcEnd - cd.srcStart)) ∧
  ((cd.dstEnd < A.dstMaxOpeningTime ∧
      A.cfg.min_opening_duration ≤ cd.dstEnd - cd.dstStart) ∨
    (cd.dstStart > A.dstMinEndingTime ∧
      A.cfg.min_ending_duration ≤ cd.dstEnd - cd.dstStart))

/-- The end-of-run cell data discovered at `(i, j) = (3, 3)` on `c2Input`. -/
def c2Cell : CellData :=
  { t := 3, srcStartIdx := 0, srcEndIdx := 3, dstStartIdx := 0, dstEndIdx := 3,
    srcStart := 0, srcEnd := 30, dstStart := 100, dstEnd := 130 }

/-! ### C6: antitonicity in `min_opening_duration` -/

/-- The comparator input with `min_opening_duration` replaced (all other
parameters and both streams fixed). -/
def withMinOp (A : LchInput) (m : Nat) : LchInput :=
  { A with cfg := { A.cfg with min_opening_duration := m } }

/-! ### Theorems -/

/-! ### Reduction lemmas for the `Except` monad -/

@[simp]
theorem ok_bind {ε α β : Type} (a : α) (f : α → Except ε β) :
    ((Except.ok a : Except ε α) >>= f) = f a := rfl

@[simp]
theorem error_bind {ε α β : Type} (e : ε) (f : α → Except ε β) :
    ((Except.error e : Except ε α) >>= f) = Except.error e := rfl

@[simp]
theorem mapError_ok {ε ε' α : Type} (f : ε → ε') (a : α) :
    Except.mapError f (Except.ok a : Except ε α) = Except.ok a := rfl

@[simp]
theorem mapError_error {ε ε' α : Type} (f : ε → ε') (e : ε) :
    Except.mapError f (Except.error e : Except ε α) = Except.error (f e) := rfl

/-- C1 counterexample: on `src = [A,B,C,D]`, `dst = [X,A,B,C,Y]` with θ = 0 the
matcher does return exactly one run, but its recorded run length (the `score`
field, `table[i][j]`) is 2, not 3: the DP table zeroes row 0 and column 0, so
the leading match `(src[0], dst[1])` is not counted even though the reported
ranges include it. -/
theorem c1_length_counterexample :
    ¬ ∃ e : ComparatorHeapEntry,
      longest_common_hash_match c1Input simhash0 = Except.ok [e] ∧ e.score = 3 := by
  rintro ⟨e, he, hs⟩
  have heval : longest_common_hash_match c1Input simhash0 = Except.ok [c1Entry] := rfl
  rw [heval] at he
  simp only [Except.ok.injEq, List.cons.injEq, and_true] at he
  rw [← he] at hs
  exact absurd hs (by decide)

/-- C1 (amended): the matcher returns exactly one run; its ranges are
`(src[0].ts, src[2].ts)` and `(dst[1].ts, dst[3].ts)` — spanning the three
matching samples `A,B,C` on each side — but its recorded length (`score`)
is 2. -/
theorem c1_matcher_single_run :
    longest_common_hash_match c1Input simhash0 = Except.ok [c1Entry] ∧
      c1Entry.src_longest_run = ((c1Input.src.getD 0 (0, 0)).2, (c1Input.src.getD 2 (0, 0)).2) ∧
      c1Entry.dst_longest_run = ((c1Input.dst.getD 1 (0, 0)).2, (c1Input.dst.getD 3 (0, 0)).2) ∧
      c1Entry.score = 2 :=
  ⟨rfl, rfl, rfl, rfl⟩

/-- C2 counterexample: a candidate whose source side is an opening and whose
destination side is an ending is *not* dropped — the matcher emits it, because
the gate only requires each side to be individually valid. -/
theorem c2_mixed_candidate_accepted :
    longest_common_hash_match c2Input simhash0 = Except.ok [c2Entry] ∧
      c2Entry.is_src_opening = true ∧ c2Entry.is_src_ending = false ∧
      c2Entry.is_dst_opening = false ∧ c2Entry.is_dst_ending = true :=
  ⟨rfl, rfl, rfl, rfl, rfl⟩

/-- C4: on an empty `src` stream the emission loop of
`longest_common_hash_match` starts at `i = src.len() - 1`, which wraps to
`2^64 - 1`, and the first table access `table[i][j]` is out of bounds: the
call panics instead of returning an empty candidate set.  Likewise,
`find_opening_and_ending` panics on an empty stream already at the region
boundary read `src_hash_data[src_opening_search_idx]` (the index is computed
from the wrapped `len - 1`). -/
theorem c4_empty_input_panics :
    longest_common_hash_match c4Input simhash0 = Except.error Panic.indexOutOfBounds ∧
      find_opening_and_ending c1Cfg simhash0
          { data := [], hash_duration := 0, md5 := "" }
          { data := [(1, 0), (2, 1)], hash_duration := 0, md5 := "" } =
        Except.error Panic.indexOutOfBounds :=
  ⟨rfl, rfl⟩

/-- C5 counterexample: with a sibling cache record whose provenance MD5
matches and `force = false`, `run_single` *succeeds* (returns the cached
record) even though `hash_duration = -1 ≤ 0` and `hash_period = -1 ≤ 0`; the
analyzer performs no configuration validation and the library error type has
no invalid-configuration variant at all. -/
theorem c5_runs_with_nonpositive_config :
    run_single false (fun _ => "aa") (some (List.replicate 8192 0)) (some c5Cache)
      (-1) (-1) (Except.error (Failure.err NeedleError.IOError)) = Except.ok c5Cache := by
  have hmd : compute_header_md5sum (fun _ => "aa") (some (List.replicate 8192 0)) =
      Except.ok "aa" := by
    simp only [compute_header_md5sum, List.length_replicate]
    rw [if_pos (le_refl 8192)]
  simp only [run_single, hmd, mapError_ok, ok_bind]
  rfl

/-- C5 (amended): the analyzer does not validate `hash_period` or
`hash_duration` at all — for *every* value of the two knobs (non-positive ones
included), `run_single` with `force = false` and a cache record whose stored
MD5 matches the provenance MD5 returns the cached record. -/
theorem c5_no_config_validation (md5hex : List Nat → String) (file : Option (List Nat))
    (d : FrameHashes) (m : String) (hmd : compute_header_md5sum md5hex file = Except.ok m)
    (hmatch : d.md5 = m) (hash_period hash_duration : ℚ)
    (decodeRest : Except Failure FrameHashes) :
    run_single false md5hex file (some d) hash_period hash_duration decodeRest =
      Except.ok d := by
  simp [run_single, hmd, hmatch]

/-- C5 witness: the amended theorem applied at the concrete counterexample
input (with `hash_duration = hash_period = -1`). -/
theorem c5_no_config_validation_witness :
    run_single false (fun _ => "aa") (some (List.replicate 8192 0)) (some c5Cache)
      (-1) (-1) (Except.ok c5Cache) = Except.ok c5Cache :=
  c5_no_config_validation (fun _ => "aa") (some (List.replicate 8192 0)) c5Cache "aa"
    (by simp only [compute_header_md5sum, List.length_replicate]
        rw [if_pos (le_refl 8192)]) rfl (-1) (-1)
    (Except.ok c5Cache)

/-- C10: the provenance fingerprint reads exactly 8192 bytes with
`read_exact`, so for every video file shorter than 8 KiB: (1) the fingerprint
computation itself fails with an I/O error; (2) `run_single` fails the same way
(the MD5 is computed before anything else, for every cache state and
configuration); (3) `check_skip_file` fails the same way whenever a skip file
exists (so that the fingerprint is actually computed); (4) `create_skip_file`
fails the same way whenever the result has at least one range to write. -/
theorem c10_short_file_io_error (md5hex : List Nat → String) (content : List Nat)
    (hshort : content.length < 8192) :
    compute_header_md5sum md5hex (some content) = Except.error NeedleError.IOError ∧
      (∀ force cache hash_period hash_duration decodeRest,
        run_single force md5hex (some content) cache hash_period hash_duration decodeRest =
          Except.error (Failure.err NeedleError.IOError)) ∧
      (∀ sf : SkipFile,
        check_skip_file md5hex (some content) (some sf) =
          Except.error NeedleError.IOError) ∧
      (∀ r : SearchResult, ¬(r.opening = none ∧ r.ending = none) →
        create_skip_file md5hex (some content) r = Except.error NeedleError.IOError) := by
  have hmd : compute_header_md5sum md5hex (some content) = Except.error NeedleError.IOError := by
    simp [compute_header_md5sum, Nat.not_le.mpr hshort]
  refine ⟨hmd, ?_, ?_, ?_⟩
  · intro force cache hash_period hash_duration decodeRest
    simp [run_single, hmd]
  · intro sf
    simp [check_skip_file, hmd]
  · intro r hr
    simp [create_skip_file, hmd, hr]

/-- C10 witness: the theorem applied to the empty file. -/
theorem c10_short_file_io_error_witness :
    compute_header_md5sum (fun _ => "aa") (some []) = Except.error NeedleError.IOError :=
  (c10_short_file_io_error (fun _ => "aa") [] (by decide)).1

/-- With θ = 0 the widened neighbor bound is `0 + 0/2 = 0` and no Hamming
distance is `< 0`, so every neighbor set is empty. -/
theorem neighborIdxs_zero (cands : List Candidate) (i : Nat) :
    neighborIdxs cands 0 i = [] := by
  simp [neighborIdxs]

/-- With θ = 0 the `distinct_matches` map has no keys at all. -/
theorem mapKeys_zero (cands : List Candidate) : mapKeys cands 0 = [] := by
  simp [mapKeys, neighborIdxs_zero]

/-- C8: with `hash_match_threshold = 0` the aggregator's neighbor relation is
empty (the test `popcount(h_i ^ h_j) >= threshold + threshold/2` excludes every
pair, a candidate with itself included), so for every non-empty match list —
whatever enumeration orders the two hash-map passes use — `find_best_match`
returns `Some` of a result with `opening = None` and `ending = None`. -/
theorem c8_zero_threshold_empty_result (cfg : ComparatorCfg)
    (hθ : cfg.hash_match_threshold = 0) (ms : List (OpeningAndEndingInfo × Bool))
    (hne : ms ≠ []) (orderO orderE : List Nat)
    (hO : orderO.Perm (mapKeys (flattenCandidates ms) cfg.hash_match_threshold))
    (hE : orderE.Perm (mapKeys (flattenCandidates ms) cfg.hash_match_threshold)) :
    find_best_match_ord cfg ms orderO orderE = some { opening := none, ending := none } := by
  have hkeys : mapKeys (flattenCandidates ms) cfg.hash_match_threshold = [] := by
    rw [hθ]; exact mapKeys_zero _
  rw [hkeys] at hO hE
  have hO' : orderO = [] := hO.eq_nil
  have hE' : orderE = [] := hE.eq_nil
  subst hO' hE'
  have hlen : ms.length ≠ 0 := by
    simpa [List.length_eq_zero] using hne
  simp [find_best_match_ord, hlen, bestList, pickBest]

/-- C8 witness: one valid 60-second opening candidate, θ = 0 — the result is
`Some { opening: None, ending: None }`. -/
theorem c8_zero_threshold_empty_result_witness :
    find_best_match_ord c8Cfg [(c8Info, true)] [] [] =
      some { opening := none, ending := none } :=
  c8_zero_threshold_empty_result c8Cfg rfl [(c8Info, true)] (by simp) [] []
    (by rw [show c8Cfg.hash_match_threshold = 0 from rfl, mapKeys_zero])
    (by rw [show c8Cfg.hash_match_threshold = 0 from rfl, mapKeys_zero])

/-- C3 counterexample: with opening candidates of duration 30 s (neighbor
count 1) and 25 s (neighbor count 5), the aggregator picks the *30-second*
candidate, not the 25-second one: the scores are
`-(1·0.3 + 30·0.7) = -21.3` and `-(5·0.3 + 25·0.7) = -19.0`, the list is
sorted ascending, and `-21.3 < -19.0`. -/
theorem c3_aggregator_counterexample :
    find_best_match c3Cfg c3Matches =
        some { opening := some (0, 30000000000),
               ending := some (100000000000, 130000000000) } ∧
      some ((0 : Nat), (30000000000 : Nat)) ≠ some ((0 : Nat), (25000000000 : Nat)) := by
  exact ⟨rfl, by decide⟩

/-- C3 (amended): the aggregator prefers the candidate with the larger
weighted sum `0.3·count + 0.7·duration`; here that is the longer (30 s)
candidate despite its smaller neighbor count. -/
theorem c3_aggregator_prefers_weighted_sum :
    (find_best_match c3Cfg c3Matches).map (fun r => r.opening) =
      some (some (0, 30000000000)) := rfl

theorem gateEntry_some_sideValid (A : LchInput) (s : List Nat → Nat) (cd : CellData)
    (e : ComparatorHeapEntry) (h : gateEntry A s cd = some e) : sideValidEntry A.cfg e := by
  simp only [gateEntry] at h
  split at h
  case isTrue hcond =>
    simp only [Option.some.injEq] at h
    subst h
    simp only [Bool.and_eq_true, Bool.or_eq_true, decide_eq_true_eq] at hcond
    obtain ⟨hsrc, hdst⟩ := hcond
    constructor
    · rcases hsrc with ⟨ho, hd⟩ | ⟨ho, hd⟩
      · exact Or.inl ⟨decide_eq_true ho, hd⟩
      · exact Or.inr ⟨decide_eq_true ho, hd⟩
    · rcases hdst with ⟨ho, hd⟩ | ⟨ho, hd⟩
      · exact Or.inl ⟨decide_eq_true ho, hd⟩
      · exact Or.inr ⟨decide_eq_true ho, hd⟩
  case isFalse => cases h

theorem emitCell_ok_some_sideValid (A : LchInput) (s : List Nat → Nat) (i j : Nat)
    (e : ComparatorHeapEntry) (h : emitCell A s i j = Except.ok (some e)) :
    sideValidEntry A.cfg e := by
  unfold emitCell at h
  cases hc : cellCandidate A i j with
  | error p => rw [hc] at h; simp at h
  | ok c =>
    rw [hc] at h
    simp only [ok_bind] at h
    cases c with
    | none => simp at h
    | some cd =>
      simp only [Except.ok.injEq] at h
      exact gateEntry_some_sideValid A s cd e h

theorem emitRowJ_ok_sideValid (A : LchInput) (s : List Nat → Nat) (i : Nat) :
    ∀ (j : Nat) (l : List ComparatorHeapEntry), emitRowJ A s i j = Except.ok l →
      ∀ e ∈ l, sideValidEntry A.cfg e := by
  intro j
  induction j with
  | zero =>
    intro l h e he
    simp only [emitRowJ, Except.ok.injEq] at h
    subst h
    cases he
  | succ j ih =>
    intro l h e he
    simp only [emitRowJ] at h
    cases hc : emitCell A s i (j + 1) with
    | error p => rw [hc] at h; simp at h
    | ok c =>
      rw [hc] at h
      simp only [ok_bind] at h
      cases hr : emitRowJ A s i j with
      | error p => rw [hr] at h; simp at h
      | ok rest =>
        rw [hr] at h
        simp only [ok_bind, Except.ok.injEq] at h
        subst h
        rcases List.mem_append.mp he with h1 | h2
        · cases c with
          | none => cases h1
          | some e' =>
            have he' : e = e' := by simpa [Option.toList] using h1
            subst he'
            exact emitCell_ok_some_sideValid A s i (j + 1) e hc
        · exact ih rest hr e h2

theorem emitAllI_ok_sideValid (A : LchInput) (s : List Nat → Nat) :
    ∀ (k : Nat) (l : List ComparatorHeapEntry), emitAllI A s k = Except.ok l →
      ∀ e ∈ l, sideValidEntry A.cfg e := by
  intro k
  induction k with
  | zero =>
    intro l h e he
    simp only [emitAllI, Except.ok.injEq] at h
    subst h
    cases he
  | succ k ih =>
    intro l h e he
    simp only [emitAllI] at h
    cases hc : emitRowJ A s (k + 1) (usizeSub1 A.dst.length) with
    | error p => rw [hc] at h; simp at h
    | ok row =>
      rw [hc] at h
      simp only [ok_bind] at h
      cases hr : emitAllI A s k with
      | error p => rw [hr] at h; simp at h
      | ok rest =>
        rw [hr] at h
        simp only [ok_bind, Except.ok.injEq] at h
        subst h
        rcases List.mem_append.mp he with h1 | h2
        · exact emitRowJ_ok_sideValid A s (k + 1) (usizeSub1 A.dst.length) row hc e h1
        · exact ih rest hr e h2

/-- When both sides of a discovered run pass their gates, the gate builds and
returns an entry (the validity condition of comparator.rs:224-230 is exactly
`cdSidesValid`). -/
theorem gateEntry_some_of_cdSidesValid (A : LchInput) (s : List Nat → Nat) (cd : CellData)
    (hv : cdSidesValid A cd) : ∃ e, gateEntry A s cd = some e := by
  simp only [gateEntry]
  split
  case isTrue => exact ⟨_, rfl⟩
  case isFalse hfalse =>
    exfalso
    apply hfalse
    simp only [Bool.and_eq_true, Bool.or_eq_true, decide_eq_true_eq]
    exact hv

/-- The inner loop visits every cell `(i, j')` with `1 ≤ j' ≤ j` and appends
whatever the gate returns there. -/
theorem emitRowJ_emits (A : LchInput) (s : List Nat → Nat) (i : Nat) :
    ∀ (j : Nat) (l : List ComparatorHeapEntry), emitRowJ A s i j = Except.ok l →
      ∀ (j' : Nat) (cd : CellData) (e : ComparatorHeapEntry), 1 ≤ j' → j' ≤ j →
        cellCandidate A i j' = Except.ok (some cd) → gateEntry A s cd = some e →
        e ∈ l := by
  intro j
  induction j with
  | zero =>
    intro l h j' cd e h1 h2 hcc hg
    exact absurd (le_trans h1 h2) (by decide)
  | succ j ih =>
    intro l h j' cd e h1 h2 hcc hg
    simp only [emitRowJ] at h
    cases hc : emitCell A s i (j + 1) with
    | error p => rw [hc] at h; simp at h
    | ok c =>
      rw [hc] at h
      simp only [ok_bind] at h
      cases hr : emitRowJ A s i j with
      | error p => rw [hr] at h; simp at h
      | ok rest =>
        rw [hr] at h
        simp only [ok_bind, Except.ok.injEq] at h
        subst h
        rcases Nat.eq_or_lt_of_le h2 with heq | hlt
        · subst heq
          have hce : c = some e := by
            unfold emitCell at hc
            rw [hcc] at hc
            simp only [ok_bind, Except.ok.injEq] at hc
            rw [hg] at hc
            exact hc.symm
          subst hce
          exact List.mem_append.mpr (Or.inl (by simp [Option.toList]))
        · exact List.mem_append.mpr
            (Or.inr (ih rest hr j' cd e h1 (Nat.lt_succ_iff.mp hlt) hcc hg))

/-- The outer loop visits every row `1 ≤ i ≤ k`, scanning each row from
`j = dst.len() - 1` downwards. -/
theorem emitAllI_emits (A : LchInput) (s : List Nat → Nat) :
    ∀ (k : Nat) (l : List ComparatorHeapEntry), emitAllI A s k = Except.ok l →
      ∀ (i j : Nat) (cd : CellData) (e : ComparatorHeapEntry), 1 ≤ i → i ≤ k →
        1 ≤ j → j ≤ usizeSub1 A.dst.length →
        cellCandidate A i j = Except.ok (some cd) → gateEntry A s cd = some e →
        e ∈ l := by
  intro k
  induction k with
  | zero =>
    intro l h i j cd e h1 h2 h3 h4 hcc hg
    exact absurd (le_trans h1 h2) (by decide)
  | succ k ih =>
    intro l h i j cd e h1 h2 h3 h4 hcc hg
    simp only [emitAllI] at h
    cases hc : emitRowJ A s (k + 1) (usizeSub1 A.dst.length) with
    | error p => rw [hc] at h; simp at h
    | ok row =>
      rw [hc] at h
      simp only [ok_bind] at h
      cases hr : emitAllI A s k with
      | error p => rw [hr] at h; simp at h
      | ok rest =>
        rw [hr] at h
        simp only [ok_bind, Except.ok.injEq] at h
        subst h
        rcases Nat.eq_or_lt_of_le h2 with heq | hlt
        · subst heq
          exact List.mem_append.mpr
            (Or.inl (emitRowJ_emits A s (k + 1) (usizeSub1 A.dst.length) row hc j cd e h3
              h4 hcc hg))
        · exact List.mem_append.mpr
            (Or.inr (ih rest hr i j cd e h1 (Nat.lt_succ_iff.mp hlt) h3 h4 hcc hg))

/-- C2 (amended): acceptance is *equivalent* to both sides being individually
valid.  Forward direction: every emitted entry records both sides as valid
(opening with duration at least `min_opening_duration`, or ending with
duration at least `min_ending_duration`).  Converse: for every cell in the
scan range (`1 ≤ i ≤ src.len()-1`, `1 ≤ j ≤ dst.len()-1`) at which the walk
discovers an end-of-run candidate, if both sides of that candidate pass their
gates then the gate builds an entry and that entry is in the returned list —
nothing beyond per-side validity is required, so mixed opening/ending
candidates are kept (see the counterexample). -/
theorem c2_accepted_iff_sides_valid (A : LchInput) (s : List Nat → Nat)
    (l : List ComparatorHeapEntry) (h : longest_common_hash_match A s = Except.ok l) :
    (∀ e ∈ l, sideValidEntry A.cfg e) ∧
    (∀ (i j : Nat) (cd : CellData), 1 ≤ i → i ≤ usizeSub1 A.src.length →
      1 ≤ j → j ≤ usizeSub1 A.dst.length →
      cellCandidate A i j = Except.ok (some cd) → cdSidesValid A cd →
      ∃ e, gateEntry A s cd = some e ∧ e ∈ l) :=
  ⟨emitAllI_ok_sideValid A s (usizeSub1 A.src.length) l h,
   fun i j cd h1 h2 h3 h4 hcc hv =>
     match gateEntry_some_of_cdSidesValid A s cd hv with
     | ⟨e, hg⟩ =>
       ⟨e, hg, emitAllI_emits A s (usizeSub1 A.src.length) l h i j cd e h1 h2 h3 h4 hcc hg⟩⟩

/-- C2 witness: the amended theorem applied to the concrete mixed input — the
forward direction at the emitted entry, and the converse at the discovered
cell `(3, 3)` whose source side is a valid opening and whose destination side
is a valid ending. -/
theorem c2_sides_valid_witness :
    sideValidEntry c2Input.cfg c2Entry ∧
      ∃ e, gateEntry c2Input simhash0 c2Cell = some e ∧ e ∈ [c2Entry] :=
  ⟨(c2_accepted_iff_sides_valid c2Input simhash0 [c2Entry] rfl).1 c2Entry
      (List.mem_singleton.mpr rfl),
   (c2_accepted_iff_sides_valid c2Input simhash0 [c2Entry] rfl).2 3 3 c2Cell
      (by decide) (by decide) (by decide) (by decide) rfl
      ⟨Or.inl (by decide), Or.inr (by decide)⟩⟩

theorem withMinOp_src (A : LchInput) (m : Nat) : (withMinOp A m).src = A.src := rfl

theorem withMinOp_dst (A : LchInput) (m : Nat) : (withMinOp A m).dst = A.dst := rfl

/-- The DP table depends on the configuration only through the hash-match
threshold. -/
theorem lchTable_theta (cfg cfg' : ComparatorCfg)
    (h : cfg.hash_match_threshold = cfg'.hash_match_threshold) (src dst : List Sample) :
    ∀ i j, lchTable cfg src dst i j = lchTable cfg' src dst i j := by
  intro i
  induction i with
  | zero => intro j; simp [lchTable]
  | succ i ih =>
    intro j
    cases j with
    | zero => simp [lchTable]
    | succ j => simp only [lchTable, h, ih j]

theorem tableGet_theta (cfg cfg' : ComparatorCfg)
    (h : cfg.hash_match_threshold = cfg'.hash_match_threshold) (src dst : List Sample)
    (i j : Nat) : tableGet cfg src dst i j = tableGet cfg' src dst i j := by
  unfold tableGet
  rw [lchTable_theta cfg cfg' h src dst i j]

/-- Candidate discovery (table walk and run reads) is independent of the
minimum-duration knobs. -/
theorem cellCandidate_withMinOp (A : LchInput) (m i j : Nat) :
    cellCandidate (withMinOp A m) i j = cellCandidate A i j := by
  unfold cellCandidate
  rw [show (withMinOp A m).cfg = { A.cfg with min_opening_duration := m } from rfl,
    withMinOp_src, withMinOp_dst,
    tableGet_theta { A.cfg with min_opening_duration := m } A.cfg rfl A.src A.dst i j,
    tableGet_theta { A.cfg with min_opening_duration := m } A.cfg rfl A.src A.dst (i + 1)
      (j + 1)]
  rfl

/-- The validity gate is antitone in `min_opening_duration`: an entry accepted
at the larger bound is accepted, unchanged, at the smaller bound. -/
theorem gateEntry_withMinOp_mono (A : LchInput) (s : List Nat → Nat) (m1 m2 : Nat)
    (hm : m1 ≤ m2) (cd : CellData) (e : ComparatorHeapEntry)
    (h : gateEntry (withMinOp A m2) s cd = some e) :
    gateEntry (withMinOp A m1) s cd = some e := by
  simp only [gateEntry, withMinOp] at h ⊢
  split at h
  case isTrue hcond =>
    split
    case isTrue => exact h
    case isFalse hfalse =>
      exfalso
      apply hfalse
      revert hcond
      simp only [Bool.and_eq_true, Bool.or_eq_true, decide_eq_true_eq]
      rintro ⟨hsrc, hdst⟩
      constructor
      · rcases hsrc with ⟨ho, hd⟩ | hend
        · exact Or.inl ⟨ho, le_trans hm hd⟩
        · exact Or.inr hend
      · rcases hdst with ⟨ho, hd⟩ | hend
        · exact Or.inl ⟨ho, le_trans hm hd⟩
        · exact Or.inr hend
  case isFalse => cases h

theorem emitCell_withMinOp_mono (A : LchInput) (s : List Nat → Nat) (m1 m2 : Nat)
    (hm : m1 ≤ m2) (i j : Nat) (v2 : Option ComparatorHeapEntry)
    (h : emitCell (withMinOp A m2) s i j = Except.ok v2) :
    ∃ v1, emitCell (withMinOp A m1) s i j = Except.ok v1 ∧
      ∀ e, v2 = some e → v1 = some e := by
  unfold emitCell at h ⊢
  rw [cellCandidate_withMinOp] at h ⊢
  cases hc : cellCandidate A i j with
  | error p => rw [hc] at h; simp at h
  | ok c =>
    rw [hc] at h
    simp only [ok_bind] at h ⊢
    cases c with
    | none =>
      simp only [Except.ok.injEq] at h
      subst h
      exact ⟨none, rfl, fun e he => by cases he⟩
    | some cd =>
      simp only [Except.ok.injEq] at h
      subst h
      refine ⟨gateEntry (withMinOp A m1) s cd, rfl, fun e he => ?_⟩
      exact gateEntry_withMinOp_mono A s m1 m2 hm cd e he

theorem emitRowJ_withMinOp_mono (A : LchInput) (s : List Nat → Nat) (m1 m2 : Nat)
    (hm : m1 ≤ m2) (i : Nat) :
    ∀ (j : Nat) (l2 : List ComparatorHeapEntry),
      emitRowJ (withMinOp A m2) s i j = Except.ok l2 →
      ∃ l1, emitRowJ (withMinOp A m1) s i j = Except.ok l1 ∧ ∀ e ∈ l2, e ∈ l1 := by
  intro j
  induction j with
  | zero =>
    intro l2 h
    simp only [emitRowJ, Except.ok.injEq] at h
    subst h
    exact ⟨[], rfl, fun e he => he⟩
  | succ j ih =>
    intro l2 h
    simp only [emitRowJ] at h ⊢
    cases hc : emitCell (withMinOp A m2) s i (j + 1) with
    | error p => rw [hc] at h; simp at h
    | ok c2 =>
      rw [hc] at h
      simp only [ok_bind] at h
      obtain ⟨v1, hv1, hv1prop⟩ := emitCell_withMinOp_mono A s m1 m2 hm i (j + 1) c2 hc
      rw [hv1]
      simp only [ok_bind]
      cases hr : emitRowJ (withMinOp A m2) s i j with
      | error p => rw [hr] at h; simp at h
      | ok rest2 =>
        rw [hr] at h
        simp only [ok_bind, Except.ok.injEq] at h
        obtain ⟨rest1, hrest1, hsub⟩ := ih rest2 hr
        rw [hrest1]
        simp only [ok_bind]
        refine ⟨v1.toList ++ rest1, rfl, ?_⟩
        subst h
        intro e he
        rcases List.mem_append.mp he with h1 | h2
        · cases c2 with
          | none => cases h1
          | some e' =>
            have he' : e = e' := by simpa [Option.toList] using h1
            subst he'
            have : v1 = some e := hv1prop e rfl
            subst this
            exact List.mem_append.mpr (Or.inl (by simp [Option.toList]))
        · exact List.mem_append.mpr (Or.inr (hsub e h2))

theorem emitAllI_withMinOp_mono (A : LchInput) (s : List Nat → Nat) (m1 m2 : Nat)
    (hm : m1 ≤ m2) :
    ∀ (k : Nat) (l2 : List ComparatorHeapEntry),
      emitAllI (withMinOp A m2) s k = Except.ok l2 →
      ∃ l1, emitAllI (withMinOp A m1) s k = Except.ok l1 ∧ ∀ e ∈ l2, e ∈ l1 := by
  intro k
  induction k with
  | zero =>
    intro l2 h
    simp only [emitAllI, Except.ok.injEq] at h
    subst h
    exact ⟨[], rfl, fun e he => he⟩
  | succ k ih =>
    intro l2 h
    simp only [emitAllI, withMinOp_dst] at h ⊢
    cases hc : emitRowJ (withMinOp A m2) s (k + 1) (usizeSub1 A.dst.length) with
    | error p => rw [hc] at h; simp at h
    | ok row2 =>
      rw [hc] at h
      simp only [ok_bind] at h
      obtain ⟨row1, hrow1, hsubrow⟩ :=
        emitRowJ_withMinOp_mono A s m1 m2 hm (k + 1) (usizeSub1 A.dst.length) row2 hc
      rw [hrow1]
      simp only [ok_bind]
      cases hr : emitAllI (withMinOp A m2) s k with
      | error p => rw [hr] at h; simp at h
      | ok rest2 =>
        rw [hr] at h
        simp only [ok_bind, Except.ok.injEq] at h
        obtain ⟨rest1, hrest1, hsub⟩ := ih rest2 hr
        rw [hrest1]
        simp only [ok_bind]
        refine ⟨row1 ++ rest1, rfl, ?_⟩
        subst h
        intro e he
        rcases List.mem_append.mp he with h1 | h2
        · exact List.mem_append.mpr (Or.inl (hsubrow e h1))
        · exact List.mem_append.mpr (Or.inr (hsub e h2))

/-- C6: the accepted candidate set is antitone in `min_opening_duration`.  For
fixed streams and all other parameters fixed, every entry returned with the
larger bound `m2` is also returned with any smaller bound `m1 ≤ m2` (so
decreasing the knob can only add entries and increasing it can only remove
them). -/
theorem c6_min_opening_duration_antitone (A : LchInput) (s : List Nat → Nat)
    (m1 m2 : Nat) (hm : m1 ≤ m2) (l1 l2 : List ComparatorHeapEntry)
    (h2 : longest_common_hash_match (withMinOp A m2) s = Except.ok l2)
    (h1 : longest_common_hash_match (withMinOp A m1) s = Except.ok l1) :
    ∀ e ∈ l2, e ∈ l1 := by
  unfold longest_common_hash_match at h1 h2
  rw [withMinOp_src] at h1 h2
  obtain ⟨l1', hl1', hsub⟩ :=
    emitAllI_withMinOp_mono A s m1 m2 hm (usizeSub1 A.src.length) l2 h2
  rw [hl1'] at h1
  simp only [Except.ok.injEq] at h1
  subst h1
  exact hsub

/-- C6 witness: on the C2 streams (run duration 30), lowering
`min_opening_duration` from 30 to 0 keeps the accepted entry. -/
theorem c6_min_opening_duration_antitone_witness : c2Entry ∈ [c2Entry] :=
  c6_min_opening_duration_antitone c2Input simhash0 0 30 (by decide) [c2Entry] [c2Entry]
    rfl rfl c2Entry (List.mem_singleton.mpr rfl)

/-! ### C7: determinism of `Comparator::run` under hash-map iteration order -/

theorem except_bind_congr {ε α β : Type} (x : Except ε α) (f g : α → Except ε β)
    (h : ∀ a, f a = g a) : (x >>= f) = (x >>= g) := by
  cases x with
  | error e => rfl
  | ok a => exact h a

/-- Sorting by the total, transitive, antisymmetric order `pairLE` erases the
enumeration order: permuted inputs sort to the same list. -/
theorem bestList_perm (cands : List Candidate) (threshold : Nat) (isOpening : Bool)
    {o1 o2 : List Nat} (h : o1.Perm o2) :
    bestList cands threshold isOpening o1 = bestList cands threshold isOpening o2 := by
  unfold bestList
  exact @List.eq_of_perm_of_sorted _ pairLE inferInstance _ _
    ((List.perm_insertionSort pairLE _).trans
      (((h.filter _).map _).trans (List.perm_insertionSort pairLE _).symm))
    (List.sorted_insertionSort pairLE _) (List.sorted_insertionSort pairLE _)

/-- The function `find_best_match` is invariant under the iteration orders of the two
passes over the `distinct_matches` hash map. -/
theorem find_best_match_ord_perm (cfg : ComparatorCfg)
    (ms : List (OpeningAndEndingInfo × Bool)) {o1 o2 o1' o2' : List Nat}
    (h1 : o1.Perm o1') (h2 : o2.Perm o2') :
    find_best_match_ord cfg ms o1 o2 = find_best_match_ord cfg ms o1' o2' := by
  simp only [find_best_match_ord]
  rw [bestList_perm _ _ _ h1, bestList_perm _ _ _ h2]

theorem processVideos_perm (c : Comparator) (data : List (Nat × Nat × OpeningAndEndingInfo))
    (us : Bool) (cs : String → Except NeedleError Bool) (ws : Bool)
    (wr : String → SearchResult → Except NeedleError Unit)
    (oO oE oO' oE' : Nat → List Nat) (hO : ∀ i, (oO i).Perm (oO' i))
    (hE : ∀ i, (oE i).Perm (oE' i)) :
    ∀ idxs, processVideos c data us cs ws wr oO oE idxs =
      processVideos c data us cs ws wr oO' oE' idxs := by
  intro idxs
  induction idxs with
  | nil => rfl
  | cons idx rest ih =>
    simp only [processVideos,
      find_best_match_ord_perm c.cfg (infoFor data idx) (hO idx) (hE idx), ih]

/-- C7: `Comparator::run` is deterministic despite the unordered hash maps
used inside `find_best_match`: two single-threaded executions over the same
videos, environment and configuration that enumerate each per-video hash map
in (possibly different) orders — necessarily permutations of one another —
produce identical result maps. -/
theorem c7_run_deterministic (c : Comparator) (simhash : List Nat → Nat)
    (loadFH : String → Except NeedleError FrameHashes) (us : Bool)
    (cs : String → Except NeedleError Bool) (ws : Bool)
    (wr : String → SearchResult → Except NeedleError Unit)
    (oO oE oO' oE' : Nat → List Nat) (hO : ∀ i, (oO i).Perm (oO' i))
    (hE : ∀ i, (oE i).Perm (oE' i)) :
    c.run simhash loadFH us cs ws wr oO oE = c.run simhash loadFH us cs ws wr oO' oE' := by
  simp only [Comparator.run]
  apply except_bind_congr
  intro fhm
  apply except_bind_congr
  intro infos
  exact processVideos_perm c _ us cs ws wr oO oE oO' oE' hO hE _

/-- C7 witness: the theorem applied at a concrete comparator with the opening
pass orders `[2,5]` and `[5,2]`. -/
theorem c7_run_deterministic_witness :
    Comparator.run { videos := ["a", "b"], cfg := c1Cfg } simhash0
        (fun _ => Except.error NeedleError.IOError) false (fun _ => Except.ok false) false
        (fun _ _ => Except.ok ()) (fun _ => [2, 5]) (fun _ => []) =
      Comparator.run { videos := ["a", "b"], cfg := c1Cfg } simhash0
        (fun _ => Except.error NeedleError.IOError) false (fun _ => Except.ok false) false
        (fun _ _ => Except.ok ()) (fun _ => [5, 2]) (fun _ => []) :=
  c7_run_deterministic _ simhash0 _ false _ false _ _ _ _ _
    (fun _ => List.Perm.swap 5 2 []) (fun _ => List.Perm.refl [])

/-! ### C9: permutation invariance of `Comparator::from_files` -/

/-- C9: `from_files` sorts the supplied paths, so any permutation of the same
input list yields the same comparator: the same `videos()` list, the same pair
enumeration, and the same `run` result for every environment. -/
theorem c9_from_files_perm (cfg : ComparatorCfg) (l1 l2 : List String) (h : l1.Perm l2) :
    Comparator.from_files cfg l1 = Comparator.from_files cfg l2 ∧
      (Comparator.from_files cfg l1).videos = (Comparator.from_files cfg l2).videos ∧
      buildPairs (Comparator.from_files cfg l1).videos.length =
        buildPairs (Comparator.from_files cfg l2).videos.length ∧
      ∀ simhash loadFH us cs ws wr oO oE,
        (Comparator.from_files cfg l1).run simhash loadFH us cs ws wr oO oE =
          (Comparator.from_files cfg l2).run simhash loadFH us cs ws wr oO oE := by
  have hsort : List.insertionSort (fun a b : String => a ≤ b) l1 =
      List.insertionSort (fun a b : String => a ≤ b) l2 :=
    List.eq_of_perm_of_sorted
      ((List.perm_insertionSort _ l1).trans (h.trans (List.perm_insertionSort _ l2).symm))
      (List.sorted_insertionSort _ l1) (List.sorted_insertionSort _ l2)
  have hmain : Comparator.from_files cfg l1 = Comparator.from_files cfg l2 := by
    unfold Comparator.from_files
    rw [hsort]
  exact ⟨hmain, by rw [hmain], by rw [hmain],
    fun simhash loadFH us cs ws wr oO oE => by rw [hmain]⟩

/-- C9 witness: the theorem applied to the two orderings of `["a", "b"]`. -/
theorem c9_from_files_perm_witness :
    (Comparator.from_files c1Cfg ["b", "a"]).videos =
      (Comparator.from_files c1Cfg ["a", "b"]).videos :=
  (c9_from_files_perm c1Cfg ["b", "a"] ["a", "b"] (List.Perm.swap "a" "b" [])).2.1

end Needle
